import Mathlib

/-!
Verification of `priv/scripts/xlsx_to_csv.py`.

The script converts an XLSX spreadsheet to a CSV file:

* `xlsx_to_csv` opens the workbook read-only, takes the active sheet,
  and for each row writes `[cell.value if cell.value is not None else ''
  for cell in row]` through Python's `csv.writer` (default dialect:
  delimiter `,`, quote char `"`, QUOTE_MINIMAL, line terminator CRLF),
  then closes the workbook and prints a success message.
* `__main__` checks `len(sys.argv) != 3`, printing a usage line to stderr
  and exiting 1 on a wrong argument count; otherwise it runs the
  conversion inside a single `try/except`, printing `Error: <msg>` to
  stderr and exiting 1 on any exception, and exiting 0 on success.

The embedding models a cell's stored value as `Option String` (the
textual rendering the CSV writer would receive), the sheet as a list of
rows, the CSV writer's default-dialect rendering, and the I/O behaviour
of the script as an explicit event trace.
-/

namespace XlsxToCsv

/-- A cell's stored value: `none` models Python `None`, `some s` models a
present value, rendered as the text the CSV writer receives. -/
abbrev Cell := Option String

/-- The active sheet: rows in sheet order, each row its cells in column
order (rows may be ragged). -/
abbrev Sheet := List (List Cell)

/-- Line 30 of the script: `cell.value if cell.value is not None else ''`. -/
def cellToField : Cell → String
  | none => ""
  | some s => s

/-- The list-comprehension of line 30 applied to a whole row. -/
def rowToFields (row : List Cell) : List String :=
  row.map cellToField

/-- A character that forces quoting under the csv module's default
dialect: the delimiter `,`, the quote char `"`, or a character of the
line terminator `\r\n`. -/
def isSpecial (c : Char) : Bool :=
  c = ',' || c = '"' || c = '\r' || c = '\n'

/-- QUOTE_MINIMAL: a field is quoted iff it contains a special character. -/
def needsQuote (s : String) : Bool :=
  s.data.any isSpecial

/-- Quote-escaping inside a quoted field: each `"` is doubled. -/
def escChars : List Char → List Char
  | [] => []
  | c :: cs => if c = '"' then '"' :: '"' :: escChars cs else c :: escChars cs

/-- How `csv.writer` renders one field under the default dialect. -/
def renderField (s : String) : String :=
  if needsQuote s then "\"" ++ String.mk (escChars s.data) ++ "\"" else s

/-- Fields joined by the delimiter `,`. -/
def joinComma : List String → String
  | [] => ""
  | [f] => f
  | f :: g :: gs => f ++ "," ++ joinComma (g :: gs)

/-- The body of one CSV record (without the line terminator).
`csv.writer` special-cases a row consisting of a single empty field,
writing it as `""` so the record is not an empty line. -/
def recordBody (fields : List String) : String :=
  if fields = [""] then "\"\"" else joinComma (fields.map renderField)

/-- One full CSV record as `writer.writerow` emits it (default line
terminator `\r\n`). -/
def writeRecordStr (fields : List String) : String :=
  recordBody fields ++ "\r\n"

/-- Concatenation of a list of strings. -/
def concatStrs : List String → String
  | [] => ""
  | s :: ss => s ++ concatStrs ss

/-- The full text written to the output CSV file by `xlsx_to_csv`:
one record per sheet row, in sheet order. -/
def xlsxToCsvContent (sheet : Sheet) : String :=
  concatStrs (sheet.map (fun r => writeRecordStr (rowToFields r)))

/-! ### A CSV field parser (standard CSV reading, used to state recovery) -/

/-- Parse the remainder of a quoted field (the opening `"` already
consumed): `""` yields a literal quote, a lone `"` at the end closes the
field, anything after a closing quote is malformed. -/
def parseQuotedAux (acc : List Char) : List Char → Option (List Char)
  | [] => none
  | c :: rest =>
      if c = '"' then
        match rest with
        | [] => some acc.reverse
        | d :: rest2 => if d = '"' then parseQuotedAux ('"' :: acc) rest2 else none
      else parseQuotedAux (c :: acc) rest

/-- Parse one rendered CSV field back to its value: a field starting with
`"` is read as a quoted field, otherwise it must contain no special
character and denotes itself. -/
def parseField (s : String) : Option String :=
  match s.data with
  | '"' :: rest => (parseQuotedAux [] rest).map String.mk
  | cs => if cs.any isSpecial then none else some (String.mk cs)

/-! ### Splitting output text back into lines and fields -/

/-- Split a character list on the delimiter character. -/
def splitChars (d : Char) : List Char → List (List Char)
  | [] => [[]]
  | c :: cs =>
      if c = d then [] :: splitChars d cs
      else List.modifyHead (fun g => c :: g) (splitChars d cs)

/-- Split a line on the `,` delimiter. -/
def splitCommaStr (line : String) : List String :=
  (splitChars ',' line.data).map String.mk

/-- Split a character list into lines at each `\r\n` terminator. -/
def splitCRLF : List Char → List (List Char)
  | [] => [[]]
  | [c] => [[c]]
  | c :: d :: cs =>
      if c = '\r' ∧ d = '\n' then [] :: splitCRLF cs
      else List.modifyHead (fun g => c :: g) (splitCRLF (d :: cs))

/-- The lines of the output CSV text. -/
def csvLines (content : String) : List String :=
  (splitCRLF content.data).map String.mk

/-! ### Event-trace model of the script's I/O behaviour -/

/-- Observable I/O events of one run of the script. -/
inductive Ev where
  | openWb (path : String)
  | openOut (path : String)
  | writeRec (fields : List String)
  | closeOut
  | closeWb
  | stdout (msg : String)
  | stderr (msg : String)
deriving DecidableEq, Repr

/-- Which event is a record write. -/
def Ev.isWrite : Ev → Bool
  | .writeRec _ => true
  | _ => false

/-- The record writes appearing in a trace, in order. -/
def writesOf (tr : List Ev) : List (List String) :=
  tr.filterMap fun e =>
    match e with
    | .writeRec f => some f
    | _ => none

/-- Which event touches a file (open/write/close of either file). -/
def Ev.isFileIO : Ev → Bool
  | .openWb _ => true
  | .openOut _ => true
  | .writeRec _ => true
  | .closeOut => true
  | .closeWb => true
  | _ => false

/-- How one invocation of `xlsx_to_csv` can go, abstracting the
environment: the workbook opens successfully yielding a sheet and
everything succeeds (`ok`); `load_workbook` raises (`openWbFail`);
`open(csv_path, 'w', ...)` raises (`openOutFail`); or the `k`-th
`writerow` raises after `k` rows were written (`writeFail`). -/
inductive ConvOutcome where
  | ok (sheet : Sheet)
  | openWbFail (msg : String)
  | openOutFail (sheet : Sheet) (msg : String)
  | writeFail (sheet : Sheet) (k : Nat) (msg : String)
deriving Repr

/-- The exception message the conversion raises, if any. -/
def ConvOutcome.exc : ConvOutcome → Option String
  | .ok _ => none
  | .openWbFail m => some m
  | .openOutFail _ m => some m
  | .writeFail _ _ m => some m

/-- Trace of `xlsx_to_csv xp cp` under outcome `o`, paired with the
exception it propagates (if any).  The `with open(...)` block guarantees
the output handle is closed on the exceptional write path before the
exception propagates; `wb.close()` and the success print happen only
after the block exits normally. -/
def convTrace (o : ConvOutcome) (xp cp : String) : List Ev × Option String :=
  match o with
  | .ok sheet =>
      ([Ev.openWb xp, Ev.openOut cp]
        ++ sheet.map (fun r => Ev.writeRec (rowToFields r))
        ++ [Ev.closeOut, Ev.closeWb,
            Ev.stdout ("Converted " ++ xp ++ " to " ++ cp)], none)
  | .openWbFail m => ([], some m)
  | .openOutFail _ m => ([Ev.openWb xp], some m)
  | .writeFail sheet k m =>
      ([Ev.openWb xp, Ev.openOut cp]
        ++ (sheet.take k).map (fun r => Ev.writeRec (rowToFields r))
        ++ [Ev.closeOut], some m)

/-- The usage line printed on a wrong argument count. -/
def usageMsg : String := "Usage: python3 xlsx_to_csv.py input.xlsx output.csv"

/-- The `__main__` block: `args` are the positional arguments
(`sys.argv[1:]`, so `len(sys.argv) != 3` is `args.length ≠ 2`).
Returns the event trace and the process exit status. -/
def mainRun (args : List String) (o : ConvOutcome) : List Ev × Nat :=
  match args with
  | [xp, cp] =>
      match convTrace o xp cp with
      | (tr, none) => (tr, 0)
      | (tr, some m) => (tr ++ [Ev.stderr ("Error: " ++ m)], 1)
  | _ => ([Ev.stderr usageMsg], 1)

/-! ## Theorems -/

/-- `writesOf` recovers exactly the rows passed to `writerow`. -/
theorem writesOf_map_writeRec (l : Sheet) :
    writesOf (l.map fun r => Ev.writeRec (rowToFields r)) = l.map rowToFields := by
  induction l with
  | nil => rfl
  | cons r rs ih => simpa [writesOf, List.filterMap_cons] using ih

/-- C1: a successful conversion writes exactly one record per input row,
in sheet order, with one field per cell in column order — ragged rows
each keep their own field count. -/
theorem one_record_per_row_in_order (sheet : Sheet) (xp cp : String) :
    writesOf (convTrace (.ok sheet) xp cp).1 = sheet.map rowToFields
    ∧ (writesOf (convTrace (.ok sheet) xp cp).1).length = sheet.length
    ∧ (writesOf (convTrace (.ok sheet) xp cp).1).map List.length
        = sheet.map List.length := by
  have h : writesOf (convTrace (.ok sheet) xp cp).1 = sheet.map rowToFields := by
    simp only [convTrace, writesOf, List.filterMap_append]
    rw [← writesOf_map_writeRec sheet]
    simp [writesOf]
  refine ⟨h, by rw [h]; simp, ?_⟩
  rw [h, List.map_map]
  exact List.map_congr_left fun r _ => by simp [rowToFields]

/-- C2: a null cell value is written as the empty string, an
empty-string cell value is written as an empty field, and every non-null
stored value is passed through unchanged; the spec's scenario sheet
produces exactly the lines `Name,Qty`, `Widget,10`, `,`. -/
theorem null_cells_become_empty_fields :
    cellToField none = ""
    ∧ cellToField (some "") = ""
    ∧ (∀ s : String, cellToField (some s) = s)
    ∧ xlsxToCsvContent
        [[some "Name", some "Qty"], [some "Widget", some "10"], [some "", none]]
        = "Name,Qty\r\nWidget,10\r\n,\r\n" :=
  ⟨rfl, rfl, fun _ => rfl, by decide⟩

/-- C5: any argument count other than two prints the usage message to
stderr and exits with status 1, performing no conversion step. -/
theorem wrong_arg_count_exits_one (args : List String) (o : ConvOutcome)
    (h : args.length ≠ 2) :
    mainRun args o = ([Ev.stderr usageMsg], 1) := by
  match args with
  | [] => rfl
  | [_] => rfl
  | [_, _] => simp at h
  | _ :: _ :: _ :: _ => rfl

theorem wrong_arg_count_exits_one_witness :
    mainRun ["only_one.xlsx"] (.ok [[some "a"]]) = ([Ev.stderr usageMsg], 1) :=
  wrong_arg_count_exits_one ["only_one.xlsx"] (.ok [[some "a"]]) (by decide)

/-- C6: with two arguments, any exception propagating from the
conversion (workbook open failure, output open failure, or a failing
write) is reported once as `Error: <message>` on stderr and the process
exits with status 1; the trace is the conversion's own events followed by
the single report. -/
theorem conversion_failure_reported_once (xp cp : String) (o : ConvOutcome)
    (m : String) (h : o.exc = some m) :
    mainRun [xp, cp] o = ((convTrace o xp cp).1 ++ [Ev.stderr ("Error: " ++ m)], 1) := by
  cases o <;> simp_all [mainRun, convTrace, ConvOutcome.exc]

theorem conversion_failure_reported_once_witness :
    (ConvOutcome.openWbFail "boom").exc = some "boom"
    ∧ mainRun ["in.xlsx", "out.csv"] (.openWbFail "boom")
        = ((convTrace (.openWbFail "boom") "in.xlsx" "out.csv").1
            ++ [Ev.stderr ("Error: " ++ "boom")], 1) :=
  ⟨rfl, conversion_failure_reported_once "in.xlsx" "out.csv" (.openWbFail "boom") "boom" rfl⟩

/-- C7: with two arguments and no exception, the process exits with
status 0 and the trace ends with `Converted <input> to <output>` on
stdout, printed after every record write, the output-handle close and
the workbook close. -/
theorem success_exit_zero_and_message (xp cp : String) (sheet : Sheet) :
    mainRun [xp, cp] (.ok sheet)
      = ([Ev.openWb xp, Ev.openOut cp]
          ++ sheet.map (fun r => Ev.writeRec (rowToFields r))
          ++ [Ev.closeOut, Ev.closeWb,
              Ev.stdout ("Converted " ++ xp ++ " to " ++ cp)], 0) := by
  simp [mainRun, convTrace]

/-- C9: on a wrong argument count the process exits with status 1 and
its trace performs no file I/O at all: the source is never opened and
the destination is never created, truncated or modified. -/
theorem usage_error_before_any_io (args : List String) (o : ConvOutcome)
    (h : args.length ≠ 2) :
    (mainRun args o).2 = 1
    ∧ ((mainRun args o).1.all fun e => !e.isFileIO) = true := by
  match args with
  | [] => exact ⟨rfl, rfl⟩
  | [_] => exact ⟨rfl, rfl⟩
  | [_, _] => simp at h
  | _ :: _ :: _ :: _ => exact ⟨rfl, rfl⟩

theorem usage_error_before_any_io_witness :
    (mainRun [] (.ok [[some "x"]])).2 = 1
    ∧ ((mainRun [] (.ok [[some "x"]])).1.all fun e => !e.isFileIO) = true :=
  usage_error_before_any_io [] (.ok [[some "x"]]) (by decide)

/-- C8: on every path of the conversion on which the output handle is
acquired, the trace closes it with no record write after the close
(guaranteed release, also when a write raises), and on the
exception-free path the workbook is closed after the output handle. -/
theorem output_handle_always_released (o : ConvOutcome) (xp cp : String)
    (h : Ev.openOut cp ∈ (convTrace o xp cp).1) :
    ∃ pre post, (convTrace o xp cp).1 = pre ++ Ev.closeOut :: post
      ∧ (post.all fun e => !e.isWrite) = true
      ∧ (o.exc = none → Ev.closeWb ∈ post) := by
  cases o with
  | ok sheet =>
      refine ⟨[Ev.openWb xp, Ev.openOut cp]
        ++ sheet.map (fun r => Ev.writeRec (rowToFields r)),
        [Ev.closeWb, Ev.stdout ("Converted " ++ xp ++ " to " ++ cp)], ?_, rfl, ?_⟩
      · simp [convTrace]
      · intro _; simp
  | openWbFail m => simp [convTrace] at h
  | openOutFail sheet m => simp [convTrace] at h
  | writeFail sheet k m =>
      refine ⟨[Ev.openWb xp, Ev.openOut cp]
        ++ (sheet.take k).map (fun r => Ev.writeRec (rowToFields r)), [], ?_, rfl, ?_⟩
      · simp [convTrace]
      · intro hc; simp [ConvOutcome.exc] at hc

theorem output_handle_always_released_witness :
    ∃ pre post,
      (convTrace (.ok [[some "v"], [none]]) "in.xlsx" "out.csv").1
        = pre ++ Ev.closeOut :: post
      ∧ (post.all fun e => !e.isWrite) = true
      ∧ ((ConvOutcome.ok [[some "v"], [none]]).exc = none → Ev.closeWb ∈ post) :=
  output_handle_always_released (.ok [[some "v"], [none]]) "in.xlsx" "out.csv" (by decide)

/-- C10: when opening the workbook fails, the run's only event is the
error report — the destination file is never opened, created or written —
and in every trace the destination is opened only immediately after the
workbook was successfully opened. -/
theorem workbook_opened_before_destination (xp cp p m : String) (o : ConvOutcome)
    (h : Ev.openOut p ∈ (convTrace o xp cp).1) :
    mainRun [xp, cp] (.openWbFail m) = ([Ev.stderr ("Error: " ++ m)], 1)
    ∧ ∃ rest, (convTrace o xp cp).1 = Ev.openWb xp :: Ev.openOut p :: rest := by
  refine ⟨rfl, ?_⟩
  cases o with
  | ok sheet =>
      simp only [convTrace, List.mem_append, List.mem_cons, List.mem_map] at h
      rcases h with ((h | h) | ⟨r, _, h⟩) | h <;> simp_all [convTrace]
  | openWbFail m2 => simp [convTrace] at h
  | openOutFail sheet m2 =>
      simp only [convTrace, List.mem_singleton] at h
      simp at h
  | writeFail sheet k m2 =>
      simp only [convTrace, List.mem_append, List.mem_cons, List.mem_map] at h
      rcases h with ((h | h) | ⟨r, _, h⟩) | h <;> simp_all [convTrace]

theorem workbook_opened_before_destination_witness :
    mainRun ["in.xlsx", "out.csv"] (.openWbFail "nope")
        = ([Ev.stderr ("Error: " ++ "nope")], 1)
    ∧ ∃ rest, (convTrace (.ok []) "in.xlsx" "out.csv").1
        = Ev.openWb "in.xlsx" :: Ev.openOut "out.csv" :: rest :=
  workbook_opened_before_destination "in.xlsx" "out.csv" "out.csv" "nope" (.ok [])
    (by decide)

/-- Parsing a quoted body built by `escChars` consumes the escaped text
and the closing quote, returning the original characters. -/
theorem parseQuotedAux_escChars (cs : List Char) :
    ∀ acc : List Char,
      parseQuotedAux acc (escChars cs ++ ['"']) = some (acc.reverse ++ cs) := by
  induction cs with
  | nil => intro acc; simp [escChars, parseQuotedAux]
  | cons c cs ih =>
      intro acc
      by_cases hc : c = '"'
      · subst hc
        simp [escChars, parseQuotedAux, ih]
      · rw [escChars, if_neg hc, List.cons_append, parseQuotedAux.eq_def]
        simp [hc, ih]

/-- A field rendered in quotes parses back via `parseQuotedAux`. -/
theorem parseField_render_quoted (s : String) (h : needsQuote s = true) :
    parseField (renderField s) = some s := by
  have hr : renderField s = String.mk ('"' :: (escChars s.data ++ ['"'])) := by
    rw [renderField, if_pos h]
    apply congrArg String.mk
    rfl
  rw [hr]
  show (parseQuotedAux [] (escChars s.data ++ ['"'])).map String.mk = some s
  rw [parseQuotedAux_escChars s.data []]
  simp

/-- C3: every field value containing the delimiter, a quote character or
a line-break character is emitted quoted with internal quotes doubled,
and re-parsing the rendered field with a standard CSV field parser
recovers the original value exactly. -/
theorem special_fields_quoted_and_recovered (s : String) (h : needsQuote s = true) :
    renderField s = "\"" ++ String.mk (escChars s.data) ++ "\""
    ∧ parseField (renderField s) = some s :=
  ⟨by rw [renderField, if_pos h], parseField_render_quoted s h⟩

theorem special_fields_quoted_and_recovered_witness :
    needsQuote "a,b" = true
    ∧ renderField "a,b" = "\"a,b\""
    ∧ parseField (renderField "a,b") = some "a,b" :=
  ⟨by decide, by decide,
    (special_fields_quoted_and_recovered "a,b" (by decide)).2⟩

/-! ### Round-trip helper lemmas -/

/-- A field with no special character is rendered verbatim. -/
theorem renderField_plain (f : String) (h : needsQuote f = false) :
    renderField f = f := by
  rw [renderField, h]
  rfl

/-- Splitting a delimiter-free character list yields one chunk. -/
theorem splitChars_of_not_mem (d : Char) (cs : List Char) (h : d ∉ cs) :
    splitChars d cs = [cs] := by
  induction cs with
  | nil => rfl
  | cons c cs ih =>
      rw [List.mem_cons, not_or] at h
      rw [splitChars, if_neg (fun hc => h.1 hc.symm), ih h.2]
      rfl

/-- Splitting peels off the first delimiter-free chunk. -/
theorem splitChars_append_delim (d : Char) (cs rest : List Char) (h : d ∉ cs) :
    splitChars d (cs ++ d :: rest) = cs :: splitChars d rest := by
  induction cs with
  | nil => simp [splitChars]
  | cons c cs ih =>
      rw [List.mem_cons, not_or] at h
      rw [List.cons_append, splitChars, if_neg (fun hc => h.1 hc.symm), ih h.2]
      rfl

/-- A character that is neither the delimiter nor in any field does not
occur in the delimiter-joined fields. -/
theorem not_mem_joinComma (fields : List String) (c : Char) (hc : c ≠ ',')
    (h : ∀ f ∈ fields, c ∉ f.data) : c ∉ (joinComma fields).data := by
  induction fields with
  | nil => simp [joinComma]
  | cons f fs ih =>
      cases fs with
      | nil => exact h f (by simp)
      | cons g gs =>
          rw [joinComma, String.data_append, String.data_append]
          simp only [List.append_assoc, List.mem_append]
          rintro (hf | hf)
          · exact h f (by simp) hf
          · rcases hf with hf | hf
            · exact hc (by simpa using hf)
            · exact ih (fun f hf2 => h f (List.mem_cons_of_mem _ hf2)) hf

/-- Splitting the comma-joined fields on the comma recovers the fields,
provided the field list is nonempty and no field contains a comma. -/
theorem splitChars_joinComma (fields : List String) (hne : fields ≠ [])
    (h : ∀ f ∈ fields, ',' ∉ f.data) :
    splitChars ',' (joinComma fields).data = fields.map String.data := by
  induction fields with
  | nil => exact absurd rfl hne
  | cons f fs ih =>
      cases fs with
      | nil =>
          rw [joinComma, List.map_cons, List.map_nil]
          exact splitChars_of_not_mem ',' f.data (h f (by simp))
      | cons g gs =>
          rw [joinComma, String.data_append, String.data_append]
          have hd : ("," : String).data = [','] := rfl
          rw [hd, List.append_assoc, List.singleton_append]
          rw [splitChars_append_delim ',' f.data _ (h f (by simp))]
          rw [ih (by simp) (fun f2 hf2 => h f2 (List.mem_cons_of_mem _ hf2))]
          rfl

/-- Unfolding `splitCRLF` on a head character that is not CR. -/
theorem splitCRLF_cons (c : Char) (cs : List Char) (h : c ≠ '\r') :
    splitCRLF (c :: cs) = List.modifyHead (fun g => c :: g) (splitCRLF cs) := by
  cases cs with
  | nil => rfl
  | cons d ds => rw [splitCRLF, if_neg (fun hc => h hc.1)]

/-- Splitting at line terminators peels off the first CR-free line. -/
theorem splitCRLF_append (body rest : List Char) (h : '\r' ∉ body) :
    splitCRLF (body ++ '\r' :: '\n' :: rest) = body :: splitCRLF rest := by
  induction body with
  | nil => simp [splitCRLF]
  | cons c body ih =>
      rw [List.mem_cons, not_or] at h
      rw [List.cons_append, splitCRLF_cons c _ (fun hc => h.1 hc.symm), ih h.2]
      rfl

/-- Concatenating strings concatenates their character lists. -/
theorem concatStrs_data (l : List String) :
    (concatStrs l).data = (l.map String.data).flatten := by
  induction l with
  | nil => rfl
  | cons s ss ih =>
      rw [concatStrs, String.data_append, ih]
      rfl

/-- For a nonempty row of present text cells with plain characters that
is not a lone empty cell, the record body is CR-free and splits on the
comma back into the row's field values. -/
theorem recordBody_plain_row (row : List Cell) (h1 : row ≠ []) (h2 : row ≠ [some ""])
    (h3 : ∀ c ∈ row, c ≠ none ∧ ∀ ch ∈ (cellToField c).data, isSpecial ch = false) :
    '\r' ∉ (recordBody (rowToFields row)).data
    ∧ splitChars ',' (recordBody (rowToFields row)).data
        = (rowToFields row).map String.data := by
  have hf : ∀ f ∈ rowToFields row, ∀ ch ∈ f.data, isSpecial ch = false := by
    intro f hfm
    rw [rowToFields, List.mem_map] at hfm
    obtain ⟨c, hcm, hfc⟩ := hfm
    exact hfc ▸ (h3 c hcm).2
  have hnotspec : ∀ (c0 : Char), isSpecial c0 = true →
      ∀ f ∈ rowToFields row, c0 ∉ f.data := by
    intro c0 hc0 f hfm hmem
    have := hf f hfm c0 hmem
    rw [hc0] at this
    exact Bool.noConfusion this
  have hne : rowToFields row ≠ [] := by
    rw [rowToFields]
    simpa using h1
  have hneq : rowToFields row ≠ [""] := by
    intro hcontra
    rw [rowToFields] at hcontra
    cases row with
    | nil => exact h1 rfl
    | cons c cs =>
        cases cs with
        | nil =>
            have hc : cellToField c = "" := by simpa using hcontra
            obtain ⟨hnn, -⟩ := h3 c (by simp)
            cases c with
            | none => exact hnn rfl
            | some s => exact h2 (by rw [show s = "" from hc])
        | cons c2 cs2 => simp at hcontra
  have hq : ∀ f ∈ rowToFields row, needsQuote f = false := by
    intro f hfm
    rw [needsQuote, List.any_eq_false]
    intro ch hch
    simpa using hf f hfm ch hch
  have hbody : recordBody (rowToFields row) = joinComma (rowToFields row) := by
    rw [recordBody, if_neg hneq]
    congr 1
    calc (rowToFields row).map renderField
        = (rowToFields row).map id :=
          List.map_congr_left fun f hfm => renderField_plain f (hq f hfm)
      _ = rowToFields row := List.map_id _
  rw [hbody]
  constructor
  · exact not_mem_joinComma _ '\r' (by decide)
      (hnotspec '\r' (by decide))
  · exact splitChars_joinComma _ hne (hnotspec ',' (by decide))

/-- The output text splits at line terminators into one line per row
(record bodies), plus the empty tail after the final terminator. -/
theorem splitCRLF_content (sheet : Sheet)
    (h : ∀ row ∈ sheet, '\r' ∉ (recordBody (rowToFields row)).data) :
    splitCRLF (xlsxToCsvContent sheet).data
      = sheet.map (fun row => (recordBody (rowToFields row)).data) ++ [[]] := by
  induction sheet with
  | nil => rfl
  | cons r rs ih =>
      have hdata : (xlsxToCsvContent (r :: rs)).data
          = (recordBody (rowToFields r)).data
              ++ '\r' :: '\n' :: (xlsxToCsvContent rs).data := by
        rw [xlsxToCsvContent, List.map_cons, concatStrs, writeRecordStr,
          String.data_append, String.data_append]
        rw [show ("\r\n" : String).data = ['\r', '\n'] from rfl]
        simp [xlsxToCsvContent]
      rw [hdata, splitCRLF_append _ _ (h r (by simp)),
        ih (fun row hr => h row (by simp [hr]))]
      rfl

/-- C4 (amended): for a spreadsheet of present text cell values whose
characters include no delimiter, quote or line-break character, where
every row is nonempty and no row is a single empty-text cell, splitting
each output CSV line on the delimiter recovers exactly the original cell
values. -/
theorem round_trip_recovers_values (sheet : Sheet)
    (hrow : ∀ row ∈ sheet, row ≠ [] ∧ row ≠ [some ""])
    (hcell : ∀ row ∈ sheet, ∀ c ∈ row, c ≠ none
        ∧ ∀ ch ∈ (cellToField c).data, isSpecial ch = false) :
    (csvLines (xlsxToCsvContent sheet)).dropLast.map splitCommaStr
      = sheet.map rowToFields := by
  have hrec := fun row hr =>
    recordBody_plain_row row (hrow row hr).1 (hrow row hr).2 (hcell row hr)
  rw [csvLines, splitCRLF_content sheet (fun row hr => (hrec row hr).1)]
  rw [List.map_append, List.map_cons, List.map_nil, List.dropLast_concat,
    List.map_map, List.map_map]
  apply List.map_congr_left
  intro row hr
  show splitCommaStr (String.mk ((recordBody (rowToFields row)).data)) = rowToFields row
  rw [splitCommaStr]
  rw [show (String.mk ((recordBody (rowToFields row)).data)).data
      = (recordBody (rowToFields row)).data from rfl]
  rw [(hrec row hr).2, List.map_map]
  calc (rowToFields row).map (String.mk ∘ String.data)
      = (rowToFields row).map id := List.map_congr_left fun f _ => rfl
    _ = rowToFields row := List.map_id _

theorem round_trip_recovers_values_witness :
    (csvLines (xlsxToCsvContent [[some "x", some "y"], [some "z"]])).dropLast.map
        splitCommaStr
      = [[some "x", some "y"], [some "z"]].map rowToFields :=
  round_trip_recovers_values [[some "x", some "y"], [some "z"]]
    (by decide) (by decide)

/-- C4 counterexample: the sheet `[[some ""]]` contains only text cell
values with no delimiter or quote characters, yet splitting its output
CSV line on the delimiter does not recover the original cell value: the
writer quotes a lone empty field, so the line is `""` and splitting
yields the two-character field `""`. -/
theorem round_trip_counterexample :
    (∀ row ∈ [[(some "" : Cell)]], ∀ c ∈ row, c ≠ none
        ∧ ∀ ch ∈ (cellToField c).data, (ch = ',' || ch = '"') = false)
    ∧ (csvLines (xlsxToCsvContent [[(some "" : Cell)]])).dropLast.map splitCommaStr
        ≠ [[(some "" : Cell)]].map rowToFields := by
  exact ⟨by decide, by decide⟩

end XlsxToCsv
